import Mathlib

/-!
Verification of `tools/cabana/videowidget.cc` / `videowidget.h` (openpilot cabana
video widget): a shallow embedding of the widget's data model and handlers, with
theorems about the alert overlay, the timeline slider painting, thumbnail
previews, seeking, play/pause and speed controls, and qlog alert parsing.

Conventions of the embedding:
  * C++ `double` values are idealized as exact rationals (`ℚ`); the
    `double → int` / `double → uint64_t` conversions truncate toward zero,
    modelled by `qtrunc`.
  * C++ `int` is `Int`; C++ integer division truncates toward zero, modelled
    by `Int.tdiv`.  `uint64_t` monotonic timestamps are `Nat`.
  * `std::map` / `QMap` are association lists with unique keys;
    `lower_bound` returns the entry with the smallest key that is at least
    the query key.
  * Qt signal/slot side effects on the external stream (`can->seekTo`,
    `can->pause`, `can->setSpeed`) are reified as a trace of `StreamCall`s.
-/

/-- Truncation toward zero of a rational, as C++ does when converting a
`double` to an integer type. -/
def qtrunc (q : ℚ) : Int := Int.tdiv q.num (q.den : Int)

/-- `cereal::ControlsState::AlertStatus`. -/
inductive AlertStatus where
  | normal
  | userPrompt
  | critical
deriving DecidableEq, Repr

/-- `cereal::ControlsState::AlertSize`. -/
inductive AlertSize where
  | sizeNone
  | small
  | mid
  | full
deriving DecidableEq, Repr

/-- `struct AlertInfo` from videowidget.h: alert status plus two text lines. -/
structure AlertInfo where
  status : AlertStatus
  text1 : String
  text2 : String
deriving DecidableEq, Repr

/-- The value-initialized `AlertInfo{}` returned when no alert is near the
query time: status 0 (NORMAL) and empty QStrings. -/
def AlertInfo.empty : AlertInfo := ⟨AlertStatus.normal, "", ""⟩

/-- The `alerts` member of `Slider`: `std::map<uint64_t, AlertInfo>` modelled
as an association list keyed by monotonic time. -/
abbrev AlertMap := List (Nat × AlertInfo)

/-- One step of the `lower_bound` computation: combine the entry `p` with the
best candidate found in the rest of the map. -/
def lbStep {α : Type} (k : Nat) (p : Nat × α) : Option (Nat × α) → Option (Nat × α)
  | none => if k ≤ p.1 then some p else none
  | some q => if k ≤ p.1 ∧ p.1 < q.1 then some p else some q

/-- `std::map::lower_bound` / `QMap::lowerBound`: the entry with the smallest
key that is greater than or equal to `k`, if any. -/
def lowerBound {α : Type} (k : Nat) : List (Nat × α) → Option (Nat × α)
  | [] => none
  | p :: ps => lbStep k p (lowerBound k ps)

/-- The monotonic time computed by `alertInfo` / `thumbnail`:
`uint64_t mono_time = (seconds + can->routeStartTime()) * 1e9`. -/
def monoNanos (routeStart seconds : ℚ) : Nat :=
  (qtrunc ((seconds + routeStart) * 1000000000)).toNat

/-- The slider's `factor` member (1000.0). -/
def factor : ℚ := 1000

/-- The lookup step of `Slider::alertInfo`: `lower_bound` on the alerts map
followed by the `(alert_it->first - mono_time) <= 1e8` window test
(`uint64_t` subtraction; `lower_bound` guarantees no wrap-around). -/
def alertLookup (alerts : AlertMap) (monoTime : Nat) : Option (Nat × AlertInfo) :=
  match lowerBound monoTime alerts with
  | some p => if p.1 - monoTime ≤ 100000000 then some p else none
  | none => none

/-- `Slider::alertInfo(double seconds)`: return the found alert, or a
default-constructed `AlertInfo{}` when there is none in the window. -/
def Slider.alertInfo (alerts : AlertMap) (routeStart seconds : ℚ) : AlertInfo :=
  match alertLookup alerts (monoNanos routeStart seconds) with
  | some p => p.2
  | none => AlertInfo.empty

/- Lemmas about `lowerBound`. -/

theorem lowerBound_mem {α : Type} {k : Nat} {m : List (Nat × α)} {q : Nat × α}
    (h : lowerBound k m = some q) : q ∈ m ∧ k ≤ q.1 := by
  induction m with
  | nil => simp [lowerBound] at h
  | cons p ps ih =>
    rw [lowerBound] at h
    cases hlb : lowerBound k ps with
    | none =>
      rw [hlb, lbStep] at h
      by_cases hk : k ≤ p.1
      · rw [if_pos hk] at h
        cases h
        exact ⟨List.mem_cons_self _ _, hk⟩
      · rw [if_neg hk] at h
        cases h
    | some r =>
      rw [hlb, lbStep] at h
      by_cases hc : k ≤ p.1 ∧ p.1 < r.1
      · rw [if_pos hc] at h
        cases h
        exact ⟨List.mem_cons_self _ _, hc.1⟩
      · rw [if_neg hc] at h
        cases h
        obtain ⟨hmem, hk⟩ := ih hlb
        exact ⟨List.mem_cons_of_mem _ hmem, hk⟩

theorem lowerBound_none_iff {α : Type} {k : Nat} {m : List (Nat × α)} :
    lowerBound k m = none ↔ ∀ p ∈ m, p.1 < k := by
  induction m with
  | nil => simp [lowerBound]
  | cons p ps ih =>
    rw [lowerBound]
    cases hlb : lowerBound k ps with
    | none =>
      rw [lbStep]
      constructor
      · intro h q hq
        by_cases hk : k ≤ p.1
        · rw [if_pos hk] at h
          cases h
        · rcases List.mem_cons.mp hq with rfl | hqs
          · omega
          · exact ih.mp hlb q hqs
      · intro h
        have hp := h p (List.mem_cons_self p ps)
        rw [if_neg (show ¬ k ≤ p.1 by omega)]
    | some r =>
      rw [lbStep]
      constructor
      · intro h
        by_cases hc : k ≤ p.1 ∧ p.1 < r.1
        · rw [if_pos hc] at h
          cases h
        · rw [if_neg hc] at h
          cases h
      · intro h
        exfalso
        have hmem := lowerBound_mem hlb
        have := h r (List.mem_cons_of_mem _ hmem.1)
        omega

theorem lowerBound_min {α : Type} {k : Nat} {m : List (Nat × α)} {q : Nat × α}
    (h : lowerBound k m = some q) : ∀ p ∈ m, k ≤ p.1 → q.1 ≤ p.1 := by
  induction m generalizing q with
  | nil => simp [lowerBound] at h
  | cons p ps ih =>
    rw [lowerBound] at h
    intro r hr hkr
    rcases List.mem_cons.mp hr with rfl | hrs
    · cases hlb : lowerBound k ps with
      | none =>
        rw [hlb, lbStep, if_pos hkr] at h
        cases h
        exact le_refl _
      | some s =>
        rw [hlb, lbStep] at h
        by_cases hc : k ≤ r.1 ∧ r.1 < s.1
        · rw [if_pos hc] at h
          cases h
          exact le_refl _
        · rw [if_neg hc] at h
          cases h
          rcases not_and_or.mp hc with hc1 | hc2
          · exact absurd hkr hc1
          · exact le_of_not_lt hc2
    · cases hlb : lowerBound k ps with
      | none =>
        have := (lowerBound_none_iff.mp hlb) r hrs
        omega
      | some s =>
        have hmin := ih hlb r hrs hkr
        rw [hlb, lbStep] at h
        by_cases hc : k ≤ p.1 ∧ p.1 < s.1
        · rw [if_pos hc] at h
          cases h
          omega
        · rw [if_neg hc] at h
          cases h
          omega

/- The widget state model: pixmaps, the InfoLabel overlay, the slider, and
the enclosing VideoWidget. -/

/-- A decoded `QPixmap`, reduced to its dimensions.  A null `QPixmap` is
represented by `none` at use sites (`Option Pixmap`). -/
structure Pixmap where
  width : Int
  height : Int
deriving DecidableEq, Repr

/-- The state of an `InfoLabel` widget: its `pixmap`, `second` and
`alert_info` members plus its Qt visibility flag. -/
structure InfoLabelState where
  pixmap : Option Pixmap
  second : String
  alert_info : AlertInfo
  visible : Bool
deriving DecidableEq, Repr

/-- `InfoLabel::showAlert`: store the alert, clear the pixmap, and make the
label visible exactly when `alert_info.text1` is non-empty. -/
def InfoLabel.showAlert (s : InfoLabelState) (alert : AlertInfo) : InfoLabelState :=
  { s with alert_info := alert, pixmap := none, visible := !alert.text1.isEmpty }

/-- The state of the `Slider`: the QSlider range and value (in ticks of
1/1000 s), whether the handle is grabbed, and the `alerts` / `thumbnails`
maps. -/
structure SliderState where
  minimum : Int
  maximum : Int
  value : Int
  sliderDown : Bool
  alerts : AlertMap
  thumbnails : List (Nat × Pixmap)

/-- `QSlider::setValue`: the stored value is clamped to the slider range. -/
def Slider.setValue (s : SliderState) (v : Int) : SliderState :=
  { s with value := max s.minimum (min s.maximum v) }

/-- `Slider::currentSecond`: `value() / factor`. -/
def Slider.currentSecond (s : SliderState) : ℚ := (s.value : ℚ) / factor

/-- `Slider::setCurrentSecond(sec)`: `setValue(sec * factor)`, the `double`
argument truncated by the implicit conversion to `int`. -/
def Slider.setCurrentSecond (s : SliderState) (sec : ℚ) : SliderState :=
  Slider.setValue s (qtrunc (sec * factor))

/-- The part of `VideoWidget`의 state that `updateState` touches: the slider
and the `alert_label` overlay. -/
structure VideoWidgetState where
  slider : SliderState
  alert_label : InfoLabelState

/-- `VideoWidget::updateState`: move the slider to the stream's current
second unless the user is dragging it, then show the alert found at the
current playback position. -/
def VideoWidget.updateState (rs currentSec : ℚ) (w : VideoWidgetState) : VideoWidgetState :=
  let slider := if w.slider.sliderDown then w.slider else Slider.setCurrentSecond w.slider currentSec
  { slider := slider,
    alert_label := InfoLabel.showAlert w.alert_label (Slider.alertInfo slider.alerts rs currentSec) }

/-- An alert used by the concrete witnesses below. -/
def demoAlert : AlertInfo := ⟨AlertStatus.critical, "FCW", "Risk of collision"⟩

/-- A one-entry alert map used by the concrete witnesses below; the key is
the monotonic time of one second past a route start of zero. -/
def demoAlerts : AlertMap := [(1000000000, demoAlert)]

/- Equation lemmas for `alertLookup` and `Slider.alertInfo`. -/

theorem alertLookup_eq_of_lb_some {m : AlertMap} {mt : Nat} {p : Nat × AlertInfo}
    (hlb : lowerBound mt m = some p) :
    alertLookup m mt = if p.1 - mt ≤ 100000000 then some p else none := by
  unfold alertLookup
  rw [hlb]

theorem alertLookup_eq_of_lb_none {m : AlertMap} {mt : Nat}
    (hlb : lowerBound mt m = none) : alertLookup m mt = none := by
  unfold alertLookup
  rw [hlb]

theorem alertInfo_eq_of_lookup_some {m : AlertMap} {rs t : ℚ} {p : Nat × AlertInfo}
    (h : alertLookup m (monoNanos rs t) = some p) : Slider.alertInfo m rs t = p.2 := by
  unfold Slider.alertInfo
  rw [h]

theorem alertInfo_eq_of_lookup_none {m : AlertMap} {rs t : ℚ}
    (h : alertLookup m (monoNanos rs t) = none) : Slider.alertInfo m rs t = AlertInfo.empty := by
  unfold Slider.alertInfo
  rw [h]

/-- Claim C2: for a query time t, alertInfo converts t plus the route start
time to nanoseconds; if the lookup succeeds it returns the stored alert with
the smallest timestamp at or after that value — never one strictly before
it — and only when the timestamp exceeds it by at most 1e8 ns; if the
lookup fails (every stored timestamp either precedes the query or exceeds
it by more than 1e8 ns) it returns the default-constructed AlertInfo. -/
theorem alertInfo_window_characterization (m : AlertMap) (rs t : ℚ) :
    (∀ k a, alertLookup m (monoNanos rs t) = some (k, a) →
      (k, a) ∈ m ∧ monoNanos rs t ≤ k ∧ k - monoNanos rs t ≤ 100000000 ∧
        (∀ p ∈ m, monoNanos rs t ≤ p.1 → k ≤ p.1) ∧ Slider.alertInfo m rs t = a) ∧
    (alertLookup m (monoNanos rs t) = none →
      Slider.alertInfo m rs t = AlertInfo.empty ∧
        ∀ p ∈ m, monoNanos rs t ≤ p.1 → 100000000 < p.1 - monoNanos rs t) := by
  constructor
  · intro k a heq
    cases hlb : lowerBound (monoNanos rs t) m with
    | none => rw [alertLookup_eq_of_lb_none hlb] at heq; cases heq
    | some p =>
      rw [alertLookup_eq_of_lb_some hlb] at heq
      by_cases h8 : p.1 - monoNanos rs t ≤ 100000000
      · rw [if_pos h8] at heq
        cases heq
        obtain ⟨hmem, hge⟩ := lowerBound_mem hlb
        refine ⟨hmem, hge, h8, lowerBound_min hlb, ?_⟩
        exact alertInfo_eq_of_lookup_some (by rw [alertLookup_eq_of_lb_some hlb, if_pos h8])
      · rw [if_neg h8] at heq
        cases heq
  · intro hn
    constructor
    · cases hlb : lowerBound (monoNanos rs t) m with
      | none => exact alertInfo_eq_of_lookup_none (alertLookup_eq_of_lb_none hlb)
      | some p =>
        rw [alertLookup_eq_of_lb_some hlb] at hn
        by_cases h8 : p.1 - monoNanos rs t ≤ 100000000
        · rw [if_pos h8] at hn; cases hn
        · exact alertInfo_eq_of_lookup_none (by rw [alertLookup_eq_of_lb_some hlb, if_neg h8])
    · intro p hp hge
      cases hlb : lowerBound (monoNanos rs t) m with
      | none =>
        have := lowerBound_none_iff.mp hlb p hp
        omega
      | some q =>
        rw [alertLookup_eq_of_lb_some hlb] at hn
        by_cases h8 : q.1 - monoNanos rs t ≤ 100000000
        · rw [if_pos h8] at hn; cases hn
        · have hqge := (lowerBound_mem hlb).2
          have hmin := lowerBound_min hlb p hp hge
          omega

/-- Witness for C2 at a concrete input: with a single alert stored exactly
one second past a route start of zero, querying at one second returns it. -/
theorem alertInfo_window_characterization_witness :
    (1000000000, demoAlert) ∈ demoAlerts ∧ Slider.alertInfo demoAlerts 0 1 = demoAlert := by
  have hmono : monoNanos 0 1 = 1000000000 := by
    simp [monoNanos, qtrunc]
  have hlook : alertLookup demoAlerts (monoNanos 0 1) = some (1000000000, demoAlert) := by
    rw [hmono]
    simp [alertLookup, lowerBound, lbStep, demoAlerts]
  have h := (alertInfo_window_characterization demoAlerts 0 1).1 1000000000 demoAlert hlook
  exact ⟨h.1, h.2.2.2.2⟩

/-- Claim C1: on every stream update, updateState hands showAlert the alert
looked up at the current playback position; afterwards the overlay stores
exactly that alert and is visible iff the alert text1 is non-empty. -/
theorem updateState_overlay_sync (rs cur : ℚ) (w : VideoWidgetState) :
    (VideoWidget.updateState rs cur w).alert_label.alert_info
        = Slider.alertInfo w.slider.alerts rs cur ∧
    ((VideoWidget.updateState rs cur w).alert_label.visible = true ↔
        (Slider.alertInfo w.slider.alerts rs cur).text1 ≠ "") := by
  have halerts :
      (if w.slider.sliderDown then w.slider else Slider.setCurrentSecond w.slider cur).alerts
        = w.slider.alerts := by
    by_cases h : w.slider.sliderDown <;> simp [h, Slider.setCurrentSecond, Slider.setValue]
  constructor
  · simp [VideoWidget.updateState, InfoLabel.showAlert, halerts]
  · simp [VideoWidget.updateState, InfoLabel.showAlert, halerts]
    rw [← Bool.not_eq_true]
    exact not_congr (String.isEmpty_iff _)

/- Timeline painting (Slider::paintEvent). -/

/-- `enum class TimelineType` used to classify timeline segments. -/
inductive TimelineType where
  | None
  | Engaged
  | UserFlag
  | AlertInfo
  | AlertWarning
  | AlertCritical
deriving DecidableEq, Repr

/-- An RGB color (`QColor`). -/
structure Color where
  r : Nat
  g : Nat
  b : Nat
deriving DecidableEq, Repr

/-- The static `timeline_colors` table; `Qt::magenta` is (255,0,255) and
`Qt::green` is (0,255,0). -/
def timeline_colors : TimelineType → Color
  | TimelineType.None => ⟨111, 143, 175⟩
  | TimelineType.Engaged => ⟨0, 163, 108⟩
  | TimelineType.UserFlag => ⟨255, 0, 255⟩
  | TimelineType.AlertInfo => ⟨0, 255, 0⟩
  | TimelineType.AlertWarning => ⟨255, 195, 0⟩
  | TimelineType.AlertCritical => ⟨199, 0, 57⟩

/-- A `fillRect` call issued by `Slider::paintEvent`, reduced to its
horizontal extent and color (the vertical extent is the same for all). -/
structure FillRect where
  left : Int
  right : Int
  color : Color
deriving DecidableEq, Repr

/-- The sequence of `fillRect` calls issued by `Slider::paintEvent`: the
whole bar in the `None` color first (the widget rect spans pixels
`0 .. width-1`), then one rectangle per timeline segment that is not
skipped, with edges `((std::max(min, begin) - min) / (max - min)) * width`
and `((std::min(max, end) - min) / (max - min)) * width` truncated to
`int`. -/
def Slider.paintTimeline (timeline : List (ℚ × ℚ × TimelineType))
    (minimumV maximumV width : Int) : List FillRect :=
  FillRect.mk 0 (width - 1) (timeline_colors TimelineType.None) ::
    timeline.filterMap fun seg =>
      if seg.1 > (maximumV : ℚ) / factor ∨ seg.2.1 < (minimumV : ℚ) / factor then none
      else some
        ⟨qtrunc (((max ((minimumV : ℚ) / factor) seg.1 - (minimumV : ℚ) / factor) /
            ((maximumV : ℚ) / factor - (minimumV : ℚ) / factor)) * (width : ℚ)),
         qtrunc (((min ((maximumV : ℚ) / factor) seg.2.1 - (minimumV : ℚ) / factor) /
            ((maximumV : ℚ) / factor - (minimumV : ℚ) / factor)) * (width : ℚ)),
         timeline_colors seg.2.2⟩

/-- Clamping of `x` to the interval `[lo, hi]`. -/
def clampQ (lo hi x : ℚ) : ℚ := min hi (max lo x)

/-- Restatement of claim C3's wording: the whole bar is filled with the
`None` color; a segment is skipped iff `begin > max` or `end < min`; for an
unskipped segment the filled rectangle's edges are the segment endpoints
clamped to `[min, max]` and mapped proportionally onto the widget width,
in the color of the segment's type. -/
def specPaintTimeline (timeline : List (ℚ × ℚ × TimelineType))
    (minimumV maximumV width : Int) : List FillRect :=
  FillRect.mk 0 (width - 1) (timeline_colors TimelineType.None) ::
    timeline.filterMap fun seg =>
      if seg.1 > (maximumV : ℚ) / factor ∨ seg.2.1 < (minimumV : ℚ) / factor then none
      else some
        ⟨qtrunc (((clampQ ((minimumV : ℚ) / factor) ((maximumV : ℚ) / factor) seg.1 -
              (minimumV : ℚ) / factor) /
            ((maximumV : ℚ) / factor - (minimumV : ℚ) / factor)) * (width : ℚ)),
         qtrunc (((clampQ ((minimumV : ℚ) / factor) ((maximumV : ℚ) / factor) seg.2.1 -
              (minimumV : ℚ) / factor) /
            ((maximumV : ℚ) / factor - (minimumV : ℚ) / factor)) * (width : ℚ)),
         timeline_colors seg.2.2⟩

/-- Claim C3: on a slider whose range is not inverted, the paint routine
issues exactly the fills described by the claim: background in the `None`
color, then for each non-skipped timeline segment one rectangle whose edges
are the clamped endpoints mapped proportionally onto the widget width, in
the color of the segment type. -/
theorem paint_timeline_colorcode (tl : List (ℚ × ℚ × TimelineType))
    (minimumV maximumV width : Int) (h : minimumV ≤ maximumV) :
    Slider.paintTimeline tl minimumV maximumV width
      = specPaintTimeline tl minimumV maximumV width := by
  have hq : (minimumV : ℚ) / factor ≤ (maximumV : ℚ) / factor := by
    unfold factor
    rw [div_le_div_iff₀ (by norm_num) (by norm_num)]
    have hc : (minimumV : ℚ) ≤ (maximumV : ℚ) := by exact_mod_cast h
    linarith
  unfold Slider.paintTimeline specPaintTimeline
  congr 1
  apply List.filterMap_congr
  intro seg hseg
  by_cases hskip : seg.1 > (maximumV : ℚ) / factor ∨ seg.2.1 < (minimumV : ℚ) / factor
  · rw [if_pos hskip, if_pos hskip]
  · rw [if_neg hskip, if_neg hskip]
    push_neg at hskip
    obtain ⟨hb, he⟩ := hskip
    have h1 : clampQ ((minimumV : ℚ) / factor) ((maximumV : ℚ) / factor) seg.1
        = max ((minimumV : ℚ) / factor) seg.1 := by
      unfold clampQ
      exact min_eq_right (max_le hq hb)
    have h2 : clampQ ((minimumV : ℚ) / factor) ((maximumV : ℚ) / factor) seg.2.1
        = min ((maximumV : ℚ) / factor) seg.2.1 := by
      unfold clampQ
      rw [max_eq_right he]
    rw [h1, h2]

/-- Witness for C3 at a concrete input: a slider over 0..10 s, 100 px wide,
with one engaged segment. -/
theorem paint_timeline_colorcode_witness :
    Slider.paintTimeline [((1 : ℚ), (2 : ℚ), TimelineType.Engaged)] 0 10000 100
      = specPaintTimeline [((1 : ℚ), (2 : ℚ), TimelineType.Engaged)] 0 10000 100 :=
  paint_timeline_colorcode [((1 : ℚ), (2 : ℚ), TimelineType.Engaged)] 0 10000 100 (by decide)

/- Time range (Slider::setTimeRange, VideoWidget::setMaximumTime). -/

/-- `Slider::setTimeRange(double min, double max)`: `assert(min < max)` then
`setRange(min * factor, max * factor)`.  The failed assertion (an abort) is
modelled as `none`; on success the new integer slider range is returned. -/
def Slider.setTimeRange (mn mx : ℚ) : Option (Int × Int) :=
  if mn < mx then some (qtrunc (mn * factor), qtrunc (mx * factor)) else none

/-- `VideoWidget::setMaximumTime(double sec)` as far as the slider range is
concerned: it calls `slider->setTimeRange(0, sec)`. -/
def VideoWidget.setMaximumTime (sec : ℚ) : Option (Int × Int) :=
  Slider.setTimeRange 0 sec

/-- Claim C7: setTimeRange asserts min < max, so setMaximumTime(sec)
completes without aborting exactly when sec > 0; for every sec ≤ 0 the
assertion fails. -/
theorem setMaximumTime_asserts_positive (sec : ℚ) :
    (VideoWidget.setMaximumTime sec).isSome ↔ 0 < sec := by
  unfold VideoWidget.setMaximumTime Slider.setTimeRange
  by_cases h : (0 : ℚ) < sec
  · simp [h]
  · simp [h]

/- Stream side effects and the play/pause and speed controls. -/

/-- A call made by the widget on the external stream object (`can`). -/
inductive StreamCall where
  | seekTo (sec : ℚ)
  | pause (paused : Bool)
  | setSpeed (speed : ℚ)
deriving DecidableEq, Repr

/-- The part of the external stream's state the widget observes. -/
structure StreamState where
  paused : Bool
deriving DecidableEq, Repr

/-- Effect of one stream call on the observed stream state:
`can->pause(b)` sets the paused flag, the other calls do not touch it. -/
def applyStreamCall (st : StreamState) : StreamCall → StreamState
  | StreamCall.pause b => { st with paused := b }
  | _ => st

/-- Effect of a sequence of stream calls. -/
def applyStreamCalls (st : StreamState) (calls : List StreamCall) : StreamState :=
  calls.foldl applyStreamCall st

/-- The play button's clicked handler: `can->pause(!can->isPaused())`. -/
def VideoWidget.playBtnClicked (st : StreamState) : List StreamCall :=
  [StreamCall.pause (!st.paused)]

/-- `VideoWidget::updatePlayBtnState`: the icon name and tooltip chosen for
the play button, depending on `can->isPaused()`. -/
def VideoWidget.updatePlayBtnState (st : StreamState) : String × String :=
  if st.paused then ("play", "Play") else ("pause", "Pause")

/-- Claim C8: clicking the play button toggles the stream's paused state,
and updatePlayBtnState shows icon "play" / tooltip "Play" exactly when the
stream is paused and "pause"/"Pause" otherwise. -/
theorem play_button_toggle_and_state (st : StreamState) :
    (applyStreamCalls st (VideoWidget.playBtnClicked st)).paused = !st.paused ∧
    (VideoWidget.updatePlayBtnState st = ("play", "Play") ↔ st.paused = true) ∧
    (VideoWidget.updatePlayBtnState st = ("pause", "Pause") ↔ st.paused = false) := by
  obtain ⟨p⟩ := st
  cases p <;>
    simp [applyStreamCalls, applyStreamCall, VideoWidget.playBtnClicked,
      VideoWidget.updatePlayBtnState]

/- Speed buttons. -/

/-- The loop constant `{0.1, 0.5, 1., 2.}` of speed-button speeds. -/
def speeds : List ℚ := [1/10, 1/2, 1, 2]

/-- A checkable speed `QToolButton` in the exclusive `QButtonGroup`. -/
structure SpeedButton where
  speed : ℚ
  checked : Bool
deriving DecidableEq, Repr

/-- The speed buttons as constructed by `VideoWidget::VideoWidget`: one per
speed, checked initially iff `speed == 1.0`. -/
def VideoWidget.speedButtons : List SpeedButton :=
  speeds.map fun s => ⟨s, if s = 1 then true else false⟩

/-- A speed button's clicked handler: `can->setSpeed(speed)`. -/
def VideoWidget.speedBtnClicked (s : ℚ) : List StreamCall :=
  [StreamCall.setSpeed s]

/-- `QButtonGroup` with `setExclusive(true)`: checking the button at index
`i` unchecks every other button in the group. -/
def setExclusiveChecked : Nat → List SpeedButton → List SpeedButton
  | _, [] => []
  | 0, b :: bs => { b with checked := true } :: bs.map fun c => { c with checked := false }
  | i + 1, b :: bs => { b with checked := false } :: setExclusiveChecked i bs

/-- Claim C9: there are exactly four speed buttons, for 0.1x, 0.5x, 1x and
2x; the 1.0x button is the one checked initially; clicking the button for
speed s issues exactly `setSpeed(s)`; and the group is exclusive — after
clicking any of the four buttons, it is the only checked one. -/
theorem speed_buttons_spec :
    VideoWidget.speedButtons.map (fun b => b.speed) = [1/10, 1/2, 1, 2] ∧
    VideoWidget.speedButtons.map (fun b => b.checked) = [false, false, true, false] ∧
    (VideoWidget.speedButtons.map fun b => VideoWidget.speedBtnClicked b.speed) =
      [[StreamCall.setSpeed (1/10)], [StreamCall.setSpeed (1/2)],
       [StreamCall.setSpeed 1], [StreamCall.setSpeed 2]] ∧
    ((setExclusiveChecked 0 VideoWidget.speedButtons).map fun b => b.checked) =
      [true, false, false, false] ∧
    ((setExclusiveChecked 1 VideoWidget.speedButtons).map fun b => b.checked) =
      [false, true, false, false] ∧
    ((setExclusiveChecked 2 VideoWidget.speedButtons).map fun b => b.checked) =
      [false, false, true, false] ∧
    ((setExclusiveChecked 3 VideoWidget.speedButtons).map fun b => b.checked) =
      [false, false, false, true] := by
  refine ⟨?_, ?_, ?_, ?_, ?_, ?_, ?_⟩ <;>
    norm_num [VideoWidget.speedButtons, speeds, VideoWidget.speedBtnClicked,
      setExclusiveChecked]

/- Hover thumbnails (Slider::thumbnail, Slider::mouseMoveEvent). -/

/-- `MIN_VIDEO_HEIGHT` from videowidget.cc. -/
def MIN_VIDEO_HEIGHT : Int := 100

/-- `THUMBNAIL_MARGIN` from videowidget.cc. -/
def THUMBNAIL_MARGIN : Int := 3

/-- `std::clamp(v, lo, hi)`. -/
def clampInt (lo hi v : Int) : Int := max lo (min hi v)

/-- `Slider::thumbnail(double seconds)`: `QMap::lowerBound` on the
thumbnails map; `none` models the null `QPixmap()` returned when every
stored thumbnail is strictly before the requested time. -/
def Slider.thumbnail (thumbnails : List (Nat × Pixmap)) (routeStart seconds : ℚ) :
    Option Pixmap :=
  match lowerBound (monoNanos routeStart seconds) thumbnails with
  | some p => some p.2
  | none => none

/-- The hover time computed by `Slider::mouseMoveEvent`:
`(minimum() + pos * ((maximum() - minimum()) / (double)width())) / factor`. -/
def hoverSeconds (minimumV maximumV width pos : Int) : ℚ :=
  ((minimumV : ℚ) + (pos : ℚ) * (((maximumV : ℚ) - (minimumV : ℚ)) / (width : ℚ))) / factor

/-- What `Slider::mouseMoveEvent` does to the `thumbnail_label`. -/
inductive LabelAction where
  | showPixmapAt (pos : Int × Int) (seconds : ℚ) (thumb : Pixmap) (alert : AlertInfo)
  | hide
deriving DecidableEq, Repr

/-- `Slider::mouseMoveEvent`: clamp the mouse x to `[0, width]`, compute the
hover time, and either show the preview label (thumbnail, formatted hover
time, alert at the hover time) above the slider or hide it. -/
def Slider.mouseMoveEvent (thumbs : List (Nat × Pixmap)) (alerts : AlertMap)
    (routeStart : ℚ) (minimumV maximumV width xRaw : Int) : LabelAction :=
  match Slider.thumbnail thumbs routeStart
      (hoverSeconds minimumV maximumV width (clampInt 0 width xRaw)) with
  | some thumb =>
      LabelAction.showPixmapAt
        (clampInt THUMBNAIL_MARGIN (width - 1 - thumb.width - THUMBNAIL_MARGIN)
           (clampInt 0 width xRaw - Int.tdiv thumb.width 2),
         -thumb.height)
        (hoverSeconds minimumV maximumV width (clampInt 0 width xRaw))
        thumb
        (Slider.alertInfo alerts routeStart
          (hoverSeconds minimumV maximumV width (clampInt 0 width xRaw)))
  | none => LabelAction.hide

/- Equation lemmas for `Slider.thumbnail` and `Slider.mouseMoveEvent`. -/

theorem thumbnail_eq_of_lb_some {thumbs : List (Nat × Pixmap)} {rs s : ℚ} {p : Nat × Pixmap}
    (h : lowerBound (monoNanos rs s) thumbs = some p) :
    Slider.thumbnail thumbs rs s = some p.2 := by
  unfold Slider.thumbnail
  rw [h]

theorem thumbnail_eq_of_lb_none {thumbs : List (Nat × Pixmap)} {rs s : ℚ}
    (h : lowerBound (monoNanos rs s) thumbs = none) :
    Slider.thumbnail thumbs rs s = none := by
  unfold Slider.thumbnail
  rw [h]

theorem mouseMove_eq_of_thumb_some {thumbs : List (Nat × Pixmap)} {alerts : AlertMap}
    {routeStart : ℚ} {minimumV maximumV width xRaw : Int} {t : Pixmap}
    (h : Slider.thumbnail thumbs routeStart
        (hoverSeconds minimumV maximumV width (clampInt 0 width xRaw)) = some t) :
    Slider.mouseMoveEvent thumbs alerts routeStart minimumV maximumV width xRaw
      = LabelAction.showPixmapAt
          (clampInt THUMBNAIL_MARGIN (width - 1 - t.width - THUMBNAIL_MARGIN)
             (clampInt 0 width xRaw - Int.tdiv t.width 2),
           -t.height)
          (hoverSeconds minimumV maximumV width (clampInt 0 width xRaw))
          t
          (Slider.alertInfo alerts routeStart
            (hoverSeconds minimumV maximumV width (clampInt 0 width xRaw))) := by
  unfold Slider.mouseMoveEvent
  rw [h]

theorem mouseMove_eq_of_thumb_none {thumbs : List (Nat × Pixmap)} {alerts : AlertMap}
    {routeStart : ℚ} {minimumV maximumV width xRaw : Int}
    (h : Slider.thumbnail thumbs routeStart
        (hoverSeconds minimumV maximumV width (clampInt 0 width xRaw)) = none) :
    Slider.mouseMoveEvent thumbs alerts routeStart minimumV maximumV width xRaw
      = LabelAction.hide := by
  unfold Slider.mouseMoveEvent
  rw [h]

/-- Claim C4: on a mouse move at raw position xRaw, the hover time is
`(minimum + pos * (maximum - minimum) / width) / factor` with pos the x
clamped to [0, width]; when some stored thumbnail has a timestamp at or
after the hover time the preview label shows the thumbnail found by
`Slider::thumbnail`, the hover time and the alert at the hover time,
positioned above the slider (y = -thumbnail height); otherwise the label
is hidden. -/
theorem mouse_move_preview (thumbs : List (Nat × Pixmap)) (alerts : AlertMap)
    (routeStart : ℚ) (minimumV maximumV width xRaw : Int) :
    ((∃ p ∈ thumbs,
        monoNanos routeStart (hoverSeconds minimumV maximumV width (clampInt 0 width xRaw))
          ≤ p.1) →
      ∃ t, Slider.thumbnail thumbs routeStart
            (hoverSeconds minimumV maximumV width (clampInt 0 width xRaw)) = some t ∧
        Slider.mouseMoveEvent thumbs alerts routeStart minimumV maximumV width xRaw
          = LabelAction.showPixmapAt
              (clampInt THUMBNAIL_MARGIN (width - 1 - t.width - THUMBNAIL_MARGIN)
                 (clampInt 0 width xRaw - Int.tdiv t.width 2),
               -t.height)
              (hoverSeconds minimumV maximumV width (clampInt 0 width xRaw))
              t
              (Slider.alertInfo alerts routeStart
                (hoverSeconds minimumV maximumV width (clampInt 0 width xRaw)))) ∧
    ((∀ p ∈ thumbs,
        p.1 < monoNanos routeStart (hoverSeconds minimumV maximumV width (clampInt 0 width xRaw))) →
      Slider.mouseMoveEvent thumbs alerts routeStart minimumV maximumV width xRaw
        = LabelAction.hide) := by
  constructor
  · intro hex
    cases hlb : lowerBound
        (monoNanos routeStart (hoverSeconds minimumV maximumV width (clampInt 0 width xRaw)))
        thumbs with
    | none =>
      exfalso
      obtain ⟨p, hp, hge⟩ := hex
      have := lowerBound_none_iff.mp hlb p hp
      omega
    | some p =>
      exact ⟨p.2, thumbnail_eq_of_lb_some hlb,
        mouseMove_eq_of_thumb_some (thumbnail_eq_of_lb_some hlb)⟩
  · intro hall
    have hlb : lowerBound
        (monoNanos routeStart (hoverSeconds minimumV maximumV width (clampInt 0 width xRaw)))
        thumbs = none := lowerBound_none_iff.mpr hall
    exact mouseMove_eq_of_thumb_none (thumbnail_eq_of_lb_none hlb)

/-- A thumbnail map with a single 10x20 thumbnail stored at the monotonic
time of one second past a route start of zero. -/
def demoThumbs : List (Nat × Pixmap) := [(1000000000, ⟨10, 20⟩)]

/-- Witness for C4 at a concrete input: slider range 0..2 s (0..2000 ticks),
100 px wide, mouse at x = 50 px, so the hover time is 1 s and the stored
thumbnail at 1 s is shown. -/
theorem mouse_move_preview_witness :
    ∃ t, Slider.thumbnail demoThumbs 0
          (hoverSeconds 0 2000 100 (clampInt 0 100 50)) = some t ∧
      Slider.mouseMoveEvent demoThumbs demoAlerts 0 0 2000 100 50
        = LabelAction.showPixmapAt
            (clampInt THUMBNAIL_MARGIN (100 - 1 - t.width - THUMBNAIL_MARGIN)
               (clampInt 0 100 50 - Int.tdiv t.width 2),
             -t.height)
            (hoverSeconds 0 2000 100 (clampInt 0 100 50))
            t
            (Slider.alertInfo demoAlerts 0
              (hoverSeconds 0 2000 100 (clampInt 0 100 50))) := by
  apply (mouse_move_preview demoThumbs demoAlerts 0 0 2000 100 50).1
  refine ⟨(1000000000, ⟨10, 20⟩), by simp [demoThumbs], ?_⟩
  have hsec : hoverSeconds 0 2000 100 (clampInt 0 100 50) = 1 := by
    rw [show clampInt 0 100 50 = (50 : Int) by decide]
    unfold hoverSeconds factor
    norm_num
  rw [hsec]
  simp [monoNanos, qtrunc]

/- Seeking (slider release and Slider::mousePressEvent). -/

/-- The `sliderReleased` handler installed by `createCameraWidget`:
`can->seekTo(slider->currentSecond())`. -/
def VideoWidget.onSliderReleased (s : SliderState) : List StreamCall :=
  [StreamCall.seekTo (Slider.currentSecond s)]

/-- `Slider::mousePressEvent`: on a left-button press with the handle not
grabbed, set the value to `minimum + (maximum - minimum) * x / width`
(C++ integer division) and emit `sliderReleased`, whose handler seeks.
Returns the new slider state and the stream calls made. -/
def Slider.mousePressEvent (s : SliderState) (width x : Int) (leftButton : Bool) :
    SliderState × List StreamCall :=
  if leftButton = true ∧ s.sliderDown = false then
    let s2 := Slider.setValue s (s.minimum + Int.tdiv ((s.maximum - s.minimum) * x) width)
    (s2, VideoWidget.onSliderReleased s2)
  else (s, [])

/-- Claim C5: all seeking is delegated to the stream: releasing the slider
seeks to `currentSecond`; a left press at x (with the handle not grabbed,
x within the widget) sets the value to
`minimum + (maximum - minimum) * x / width` and triggers the same seekTo
at the new value; and no press ever issues anything but a single seekTo
(or nothing). -/
theorem seek_delegation (s : SliderState) (width x : Int)
    (hx0 : 0 ≤ x) (hxw : x ≤ width) (hw : 0 < width)
    (hmm : s.minimum ≤ s.maximum) (hdown : s.sliderDown = false) :
    (Slider.mousePressEvent s width x true).1.value
        = s.minimum + Int.tdiv ((s.maximum - s.minimum) * x) width ∧
    (Slider.mousePressEvent s width x true).2
        = [StreamCall.seekTo
            (((s.minimum + Int.tdiv ((s.maximum - s.minimum) * x) width : Int) : ℚ) / factor)] ∧
    (∀ s2 : SliderState,
      VideoWidget.onSliderReleased s2 = [StreamCall.seekTo (Slider.currentSecond s2)]) ∧
    (∀ (s2 : SliderState) (w2 x2 : Int) (b : Bool),
      (Slider.mousePressEvent s2 w2 x2 b).2 = [] ∨
      ∃ sec, (Slider.mousePressEvent s2 w2 x2 b).2 = [StreamCall.seekTo sec]) := by
  have hd : (0 : Int) ≤ s.maximum - s.minimum := by omega
  have hnum : (0 : Int) ≤ (s.maximum - s.minimum) * x := mul_nonneg hd hx0
  have hv0 : (0 : Int) ≤ Int.tdiv ((s.maximum - s.minimum) * x) width :=
    Int.tdiv_nonneg hnum (le_of_lt hw)
  have hvd : Int.tdiv ((s.maximum - s.minimum) * x) width ≤ s.maximum - s.minimum := by
    rw [Int.tdiv_eq_ediv hnum (le_of_lt hw)]
    calc (s.maximum - s.minimum) * x / width
        ≤ (s.maximum - s.minimum) * width / width :=
          Int.ediv_le_ediv hw (mul_le_mul_of_nonneg_left hxw hd)
      _ = s.maximum - s.minimum := Int.mul_ediv_cancel _ (ne_of_gt hw)
  have hcond : (true = true ∧ s.sliderDown = false) := ⟨rfl, hdown⟩
  have hval2 : (Slider.setValue s
        (s.minimum + Int.tdiv ((s.maximum - s.minimum) * x) width)).value
      = s.minimum + Int.tdiv ((s.maximum - s.minimum) * x) width := by
    simp [Slider.setValue, min_eq_right (show s.minimum + Int.tdiv ((s.maximum - s.minimum) * x) width ≤ s.maximum by omega),
      max_eq_right (show s.minimum ≤ s.minimum + Int.tdiv ((s.maximum - s.minimum) * x) width by omega)]
  have hval : (Slider.mousePressEvent s width x true).1.value
      = s.minimum + Int.tdiv ((s.maximum - s.minimum) * x) width := by
    unfold Slider.mousePressEvent
    rw [if_pos hcond]
    exact hval2
  refine ⟨hval, ?_, fun s2 => rfl, ?_⟩
  · unfold Slider.mousePressEvent
    rw [if_pos hcond]
    unfold VideoWidget.onSliderReleased Slider.currentSecond
    have hcast : ((Slider.setValue s
          (s.minimum + Int.tdiv ((s.maximum - s.minimum) * x) width)).value : ℚ)
        = ((s.minimum + Int.tdiv ((s.maximum - s.minimum) * x) width : Int) : ℚ) := by
      rw [hval2]
    exact congrArg (fun q => [StreamCall.seekTo (q / factor)]) hcast
  · intro s2 w2 x2 b
    unfold Slider.mousePressEvent
    by_cases hc : (b = true ∧ s2.sliderDown = false)
    · rw [if_pos hc]
      right
      exact ⟨_, rfl⟩
    · rw [if_neg hc]
      left
      rfl

/-- A slider over 0..2 s used by the concrete witnesses below. -/
def demoSlider : SliderState :=
  ⟨0, 2000, 0, false, [], []⟩

/-- Witness for C5 at a concrete input: pressing at x = 50 on a 100 px
slider over 0..2000 ticks seeks to tick 1000 (= 1 s). -/
theorem seek_delegation_witness :
    (Slider.mousePressEvent demoSlider 100 50 true).2
      = [StreamCall.seekTo
          (((demoSlider.minimum
              + Int.tdiv ((demoSlider.maximum - demoSlider.minimum) * 50) 100 : Int) : ℚ)
            / factor)] :=
  (seek_delegation demoSlider 100 50 (by decide) (by decide) (by decide)
    (by decide) (by decide)).2.1

/- Qlog parsing (Slider::parseQLog). -/

/-- The payload of a log event, as far as `parseQLog` inspects it: a
THUMBNAIL event carries a timestamp and raw (undecoded) JPEG bytes, a
CONTROLS_STATE event carries the alert fields, and anything else is
ignored. -/
inductive EventData where
  | thumbnailData (timestampEof : Nat) (jpegData : List Nat)
  | controlsState (alertType alertText1 alertText2 : String)
      (alertStatus : AlertStatus) (alertSize : AlertSize)
  | other
deriving DecidableEq, Repr

/-- An event of the loaded qlog (`LogReader::events`). -/
structure Event where
  mono_time : Nat
  data : EventData
deriving DecidableEq, Repr

/-- `std::map::emplace`: insert only when the key is not already present. -/
def mapEmplace (m : AlertMap) (k : Nat) (v : AlertInfo) : AlertMap :=
  if m.any fun p => p.1 == k then m else m ++ [(k, v)]

/-- The CONTROLS_STATE filter of `parseQLog`, as a boolean predicate:
alertType non-empty, alertText1 non-empty, alertSize not NONE. -/
def qualifiesAlert (e : Event) : Bool :=
  match e.data with
  | EventData.controlsState ty t1 _ _ sz =>
      decide (0 < ty.length) && decide (0 < t1.length) && decide (sz ≠ AlertSize.sizeNone)
  | _ => false

/-- The effect of processing one event on the `alerts` map in the
`blockingMap` body of `parseQLog`. -/
def parseAlertStep (m : AlertMap) (e : Event) : AlertMap :=
  match e.data with
  | EventData.controlsState ty t1 t2 st sz =>
      if 0 < ty.length ∧ 0 < t1.length ∧ sz ≠ AlertSize.sizeNone
      then mapEmplace m e.mono_time ⟨st, t1, t2⟩
      else m
  | _ => m

/-- The `alerts` map accumulated by `Slider::parseQLog` over the events of a
qlog (the mutex serializes the map accesses; the key set and the stored
texts do not depend on the processing order). -/
def Slider.parseQLogAlerts (alerts : AlertMap) (events : List Event) : AlertMap :=
  events.foldl parseAlertStep alerts

/- Lemmas about `mapEmplace` and `parseAlertStep`. -/

theorem mapEmplace_key_iff {m : AlertMap} {k k0 : Nat} {v : AlertInfo} :
    (∃ a, (k, a) ∈ mapEmplace m k0 v) ↔ (∃ a, (k, a) ∈ m) ∨ k = k0 := by
  unfold mapEmplace
  by_cases hany : m.any fun p => p.1 == k0
  · rw [if_pos hany]
    constructor
    · exact fun h => Or.inl h
    · rintro (h | rfl)
      · exact h
      · obtain ⟨p, hp, hpk⟩ := List.any_eq_true.mp hany
        obtain ⟨a, b⟩ := p
        have hak : a = k := by simpa using hpk
        rw [hak] at hp
        exact ⟨b, hp⟩
  · rw [if_neg hany]
    constructor
    · rintro ⟨a, ha⟩
      rcases List.mem_append.mp ha with h | h
      · exact Or.inl ⟨a, h⟩
      · simp at h
        exact Or.inr h.1
    · rintro (⟨a, ha⟩ | rfl)
      · exact ⟨a, List.mem_append.mpr (Or.inl ha)⟩
      · exact ⟨v, List.mem_append.mpr (Or.inr (by simp))⟩

theorem mem_mapEmplace {m : AlertMap} {k : Nat} {v : AlertInfo} {p : Nat × AlertInfo}
    (h : p ∈ mapEmplace m k v) : p ∈ m ∨ p = (k, v) := by
  unfold mapEmplace at h
  by_cases hany : m.any fun q => q.1 == k
  · rw [if_pos hany] at h
    exact Or.inl h
  · rw [if_neg hany] at h
    rcases List.mem_append.mp h with h2 | h2
    · exact Or.inl h2
    · simp at h2
      exact Or.inr (by rw [h2])

theorem parseAlertStep_key_iff {m : AlertMap} {e : Event} {k : Nat} :
    (∃ a, (k, a) ∈ parseAlertStep m e) ↔
      (∃ a, (k, a) ∈ m) ∨ (qualifiesAlert e = true ∧ e.mono_time = k) := by
  obtain ⟨mt, d⟩ := e
  cases d with
  | thumbnailData ts jd => simp [parseAlertStep, qualifiesAlert]
  | other => simp [parseAlertStep, qualifiesAlert]
  | controlsState ty t1 t2 st sz =>
    by_cases hc : 0 < ty.length ∧ 0 < t1.length ∧ sz ≠ AlertSize.sizeNone
    · simp only [parseAlertStep]
      rw [if_pos hc]
      rw [mapEmplace_key_iff]
      simp only [qualifiesAlert]
      constructor
      · rintro (h | rfl)
        · exact Or.inl h
        · exact Or.inr ⟨by simp [hc.1, hc.2.1, hc.2.2], rfl⟩
      · rintro (h | ⟨hq, rfl⟩)
        · exact Or.inl h
        · exact Or.inr rfl
    · simp only [parseAlertStep]
      rw [if_neg hc]
      simp only [qualifiesAlert]
      constructor
      · exact fun h => Or.inl h
      · rintro (h | ⟨hq, rfl⟩)
        · exact h
        · exfalso
          apply hc
          have hq2 := hq
          simp only [Bool.and_eq_true, decide_eq_true_eq] at hq2
          exact ⟨hq2.1.1, hq2.1.2, hq2.2⟩

theorem parseAlertStep_text1 {m : AlertMap} {e : Event}
    (hm : ∀ p ∈ m, p.2.text1 ≠ "") : ∀ p ∈ parseAlertStep m e, p.2.text1 ≠ "" := by
  intro p hp
  obtain ⟨mt, d⟩ := e
  cases d with
  | thumbnailData ts jd => exact hm p hp
  | other => exact hm p hp
  | controlsState ty t1 t2 st sz =>
    simp only [parseAlertStep] at hp
    by_cases hc : 0 < ty.length ∧ 0 < t1.length ∧ sz ≠ AlertSize.sizeNone
    · rw [if_pos hc] at hp
      rcases mem_mapEmplace hp with h | h
      · exact hm p h
      · rw [h]
        intro hcon
        have ht : t1 = "" := hcon
        have : t1.length = 0 := by rw [ht]; rfl
        omega
    · rw [if_neg hc] at hp
      exact hm p hp

theorem parseQLogAlerts_key_iff (events : List Event) :
    ∀ (m : AlertMap) (k : Nat),
      (∃ a, (k, a) ∈ Slider.parseQLogAlerts m events) ↔
        (∃ a, (k, a) ∈ m) ∨ ∃ e ∈ events, qualifiesAlert e = true ∧ e.mono_time = k := by
  induction events with
  | nil => intro m k; simp [Slider.parseQLogAlerts]
  | cons e es ih =>
    intro m k
    have hstep : Slider.parseQLogAlerts m (e :: es)
        = Slider.parseQLogAlerts (parseAlertStep m e) es := by
      rw [Slider.parseQLogAlerts, Slider.parseQLogAlerts, List.foldl_cons]
    rw [hstep, ih (parseAlertStep m e) k, parseAlertStep_key_iff]
    simp only [List.mem_cons]
    constructor
    · rintro ((h | h) | ⟨e2, he2, hq⟩)
      · exact Or.inl h
      · exact Or.inr ⟨e, Or.inl rfl, h⟩
      · exact Or.inr ⟨e2, Or.inr he2, hq⟩
    · rintro (h | ⟨e2, (rfl | he2), hq⟩)
      · exact Or.inl (Or.inl h)
      · exact Or.inl (Or.inr hq)
      · exact Or.inr ⟨e2, he2, hq⟩

theorem parseQLogAlerts_text1 (events : List Event) :
    ∀ m : AlertMap, (∀ p ∈ m, p.2.text1 ≠ "") →
      ∀ p ∈ Slider.parseQLogAlerts m events, p.2.text1 ≠ "" := by
  induction events with
  | nil => intro m hm; simpa [Slider.parseQLogAlerts] using hm
  | cons e es ih =>
    intro m hm
    have hstep : Slider.parseQLogAlerts m (e :: es)
        = Slider.parseQLogAlerts (parseAlertStep m e) es := by
      rw [Slider.parseQLogAlerts, Slider.parseQLogAlerts, List.foldl_cons]
    rw [hstep]
    exact ih (parseAlertStep m e) (parseAlertStep_text1 hm)

theorem alertLookup_mem {m : AlertMap} {mt : Nat} {p : Nat × AlertInfo}
    (h : alertLookup m mt = some p) : p ∈ m := by
  cases hlb : lowerBound mt m with
  | none => rw [alertLookup_eq_of_lb_none hlb] at h; cases h
  | some q =>
    rw [alertLookup_eq_of_lb_some hlb] at h
    by_cases h8 : q.1 - mt ≤ 100000000
    · rw [if_pos h8] at h
      cases h
      exact (lowerBound_mem hlb).1
    · rw [if_neg h8] at h
      cases h

/-- Claim C10: parsing a qlog puts an entry in the alerts map exactly for
the CONTROLS_STATE events with non-empty alertType, non-empty alertText1
and alertSize ≠ NONE; every stored AlertInfo therefore has non-empty text1,
so alertInfo either returns the empty default (overlay hidden) or an alert
whose overlay is visible with non-blank text. -/
theorem parseQLog_alert_entries (events : List Event) :
    (∀ k, (∃ a, (k, a) ∈ Slider.parseQLogAlerts [] events) ↔
        ∃ e ∈ events, qualifiesAlert e = true ∧ e.mono_time = k) ∧
    (∀ p ∈ Slider.parseQLogAlerts [] events, p.2.text1 ≠ "") ∧
    (∀ rs t : ℚ,
      Slider.alertInfo (Slider.parseQLogAlerts [] events) rs t = AlertInfo.empty ∨
      ((Slider.alertInfo (Slider.parseQLogAlerts [] events) rs t).text1 ≠ "" ∧
        ∀ lbl : InfoLabelState,
          (InfoLabel.showAlert lbl
            (Slider.alertInfo (Slider.parseQLogAlerts [] events) rs t)).visible = true)) := by
  have hkey := parseQLogAlerts_key_iff events [] 
  have htext := parseQLogAlerts_text1 events [] (by intro p hp; cases hp)
  refine ⟨fun k => (parseQLogAlerts_key_iff events [] k).trans (by simp), htext, ?_⟩
  intro rs t
  cases hl : alertLookup (Slider.parseQLogAlerts [] events) (monoNanos rs t) with
  | none => exact Or.inl (alertInfo_eq_of_lookup_none hl)
  | some p =>
    right
    have hmem := alertLookup_mem hl
    have ht1 := htext p hmem
    have heq := alertInfo_eq_of_lookup_some hl
    rw [heq]
    refine ⟨ht1, fun lbl => ?_⟩
    unfold InfoLabel.showAlert
    simp only
    cases hie : p.2.text1.isEmpty
    · rfl
    · exact absurd ((String.isEmpty_iff _).mp hie) ht1

/-- A one-event qlog with a qualifying CONTROLS_STATE alert, for the
witness below. -/
def demoEvents : List Event :=
  [⟨1000000000, EventData.controlsState "fcw" "FCW" "" AlertStatus.critical AlertSize.full⟩]

/-- Witness for C10 at a concrete input: the qualifying event of
demoEvents puts an entry at its mono_time into the parsed alerts map. -/
theorem parseQLog_alert_entries_witness :
    ∃ a, (1000000000, a) ∈ Slider.parseQLogAlerts [] demoEvents :=
  ((parseQLog_alert_entries demoEvents).1 1000000000).mpr
    ⟨⟨1000000000, EventData.controlsState "fcw" "FCW" "" AlertStatus.critical AlertSize.full⟩,
      by simp [demoEvents], by decide, rfl⟩

/- The externally visible actions of Slider::parseQLog (claim C6). -/

/-- One observable action of the `blockingMap` body of `Slider::parseQLog`
while processing a single event: decoding the raw JPEG bytes of a
THUMBNAIL event (`QPixmap::loadFromData(data, "jpeg")`), storing a decoded
thumbnail, or storing an alert. -/
inductive ParseAction where
  | decodeJpeg (data : List Nat)
  | storeThumbnail (timestampEof : Nat)
  | storeAlert (monoTime : Nat)
deriving DecidableEq, Repr

/-- The actions taken for one event: a THUMBNAIL event has its embedded
JPEG bytes decoded and, when decoding succeeds, the scaled pixmap stored; a
qualifying CONTROLS_STATE event has its alert stored; everything else is
ignored.  `decode` stands for the external JPEG decoder
(`QPixmap::loadFromData`), returning `none` on failure. -/
def eventActions (decode : List Nat → Option Pixmap) (e : Event) : List ParseAction :=
  match e.data with
  | EventData.thumbnailData ts jpegData =>
      ParseAction.decodeJpeg jpegData ::
        (match decode jpegData with
         | some _ => [ParseAction.storeThumbnail ts]
         | none => [])
  | EventData.controlsState ty t1 _ _ sz =>
      if 0 < ty.length ∧ 0 < t1.length ∧ sz ≠ AlertSize.sizeNone
      then [ParseAction.storeAlert e.mono_time]
      else []
  | EventData.other => []

/-- The full action trace of `Slider::parseQLog` over the events of a
qlog. -/
def Slider.parseQLogActions (decode : List Nat → Option Pixmap)
    (events : List Event) : List ParseAction :=
  events.foldr (fun e acc => eventActions decode e ++ acc) []

/-- Counterexample to claim C6 as stated: on a qlog holding one THUMBNAIL
event, `parseQLog` does decode media data contained in the event — the
trace contains the JPEG decode of exactly the bytes carried by the event
(here the JPEG SOI marker 0xFF 0xD8). -/
theorem parseQLog_decodes_thumbnail_jpeg :
    ParseAction.decodeJpeg [255, 216] ∈
      Slider.parseQLogActions (fun _ => none)
        [⟨5, EventData.thumbnailData 7 [255, 216]⟩] := by
  simp [Slider.parseQLogActions, eventActions]

/-- Claim C6 (amended): `parseQLog` performs no decoding of video or of the
log container format, and for non-THUMBNAIL events only stores already
decoded information; the only decoding it performs is of the JPEG
thumbnail bytes embedded in THUMBNAIL events — a decode action appears in
its trace exactly for the bytes carried by some THUMBNAIL event of the
qlog. -/
theorem parseQLog_decode_only_thumbnails (decode : List Nat → Option Pixmap)
    (events : List Event) (d : List Nat) :
    ParseAction.decodeJpeg d ∈ Slider.parseQLogActions decode events ↔
      ∃ e ∈ events, ∃ ts, e.data = EventData.thumbnailData ts d := by
  induction events with
  | nil => simp [Slider.parseQLogActions]
  | cons e es ih =>
    have hstep : Slider.parseQLogActions decode (e :: es)
        = eventActions decode e ++ Slider.parseQLogActions decode es := by
      rw [Slider.parseQLogActions, Slider.parseQLogActions, List.foldr_cons]
    rw [hstep]
    rw [List.mem_append]
    have hhead : ParseAction.decodeJpeg d ∈ eventActions decode e ↔
        ∃ ts, e.data = EventData.thumbnailData ts d := by
      obtain ⟨mt, data⟩ := e
      cases data with
      | thumbnailData ts jd =>
        simp only [eventActions]
        constructor
        · intro h
          rcases List.mem_cons.mp h with h2 | h2
          · cases h2
            exact ⟨ts, rfl⟩
          · exfalso
            cases hd : decode jd with
            | some pm =>
              rw [hd] at h2
              simp at h2
            | none =>
              rw [hd] at h2
              simp at h2
        · rintro ⟨ts2, hts⟩
          cases hts
          exact List.mem_cons_self _ _
      | controlsState ty t1 t2 st sz =>
        simp only [eventActions]
        constructor
        · intro h
          exfalso
          by_cases hc : 0 < ty.length ∧ 0 < t1.length ∧ sz ≠ AlertSize.sizeNone
          · rw [if_pos hc] at h
            simp at h
          · rw [if_neg hc] at h
            simp at h
        · rintro ⟨ts2, hts⟩
          cases hts
      | other =>
        simp only [eventActions]
        constructor
        · intro h
          simp at h
        · rintro ⟨ts2, hts⟩
          cases hts
    rw [hhead, ih]
    simp only [List.mem_cons]
    constructor
    · rintro (⟨ts, hts⟩ | ⟨e2, he2, ts, hts⟩)
      · exact ⟨e, Or.inl rfl, ts, hts⟩
      · exact ⟨e2, Or.inr he2, ts, hts⟩
    · rintro ⟨e2, (rfl | he2), ts, hts⟩
      · exact Or.inl ⟨ts, hts⟩
      · exact Or.inr ⟨e2, he2, ts, hts⟩
